import Mathlib

/-!
Verification development for the metaboss batch-action subsystem and the
single-shot creation commands.

The Rust source under `src/create/methods.rs` and `src/update/token_standard.rs`
is shallowly embedded below.  External effects (RPC calls, key parsing, file
reads) are modelled by explicit environment records whose fields give the
result of each external call; the embedded functions mirror the Rust control
flow over those results and additionally return a trace of the external calls
they performed.  Machine integers are modelled as `Int`/`Nat`.  The one `f64`
computation (initial-supply scaling in `create_fungible`) is modelled
faithfully: an `f64` value is represented by its exact rational value, the
multiply rounds the exact product to the nearest binary64 (ties to even),
`10_f64.powi` follows compiler-rt's `__powidf2` square-and-multiply loop with
a correctly rounded multiply at each step, and the Rust saturating `as u64`
cast is made explicit.

Components of the batch engine that the specification describes but whose
source is not part of the two files above (the Target List Loader, the Retry
Policy and the Batch Runner) are modelled from the specification's words; each
such definition carries a doc comment starting `Modelled from the spec:`.
-/

namespace Metaboss

/-- Opaque string identifying one unit of work (a mint account address). -/
abbrev TargetId := String

/-- Abstract public key (`solana_sdk::pubkey::Pubkey`); its internal structure
is irrelevant to every claim, so it is modelled as a `Nat`. -/
abbrev Pubkey := Nat

/-- Abstract transaction signature, as returned by `send_and_confirm_transaction`. -/
abbrev Signature := String

/-- Abstract recent blockhash. -/
abbrev Blockhash := Nat

/-- `ActionError` from the batch action engine; `set_token_standard_one` only
ever produces the `ActionFailed (target, reason)` variant. -/
inductive ActionError where
  | actionFailed (target : TargetId) (reason : String)
deriving DecidableEq, Repr

/-- Per-target result classification (`Success(receipt)` / `Failure(reason)`). -/
inductive Outcome where
  | success (receipt : String)
  | failure (reason : String)
deriving DecidableEq, Repr

/-- The optional "new value" payload of the batch context (`crate::cache::NewValue`);
the source of `cache.rs` is not in scope, only the `None` variant is used by the
embedded code, so one non-`None` variant stands for all the others. -/
inductive NewValue where
  | none
  | value (payload : String)
deriving DecidableEq, Repr

/-! ## `create_master_edition` (src/create/methods.rs, lines 189-252) -/

/-- The `match args.max_supply` at lines 213-217 of `src/create/methods.rs`:
`i64::MIN..=-2` panics with the given message (modelled as `Except.error`),
`-1` gives `None`, `0..` gives `Some(args.max_supply as u64)` (the cast of a
non-negative `i64` to `u64` is value-preserving, hence `Int.toNat`). -/
def max_supply_match (max_supply : Int) : Except String (Option Nat) :=
  if max_supply ≤ -2 then
    Except.error "Max supply: must be greater than -1"
  else if max_supply = -1 then
    Except.ok Option.none
  else
    Except.ok (Option.some max_supply.toNat)

/-- The fields `CreateMasterEditionV3Builder` collects in
`create_master_edition` (lines 219-231). -/
structure CreateMasterEditionV3Ix where
  edition : Pubkey
  mint : Pubkey
  update_authority : Pubkey
  mint_authority : Pubkey
  metadata : Pubkey
  payer : Pubkey
  max_supply : Option Nat
deriving DecidableEq, Repr

/-- Lines 213-231 of `src/create/methods.rs`: resolve `max_supply` through the
match, then build the instruction, calling `builder.max_supply(v)` only when
the match produced `Some(v)` (lines 228-230); the builder's `max_supply` field
starts out unset. -/
def create_master_edition_ix (edition mint update_authority mint_authority metadata payer : Pubkey)
    (max_supply : Int) : Except String CreateMasterEditionV3Ix :=
  (max_supply_match max_supply).map fun ms =>
    let builder : CreateMasterEditionV3Ix :=
      { edition := edition, mint := mint, update_authority := update_authority,
        mint_authority := mint_authority, metadata := metadata, payer := payer,
        max_supply := Option.none }
    match ms with
    | Option.some v => { builder with max_supply := Option.some v }
    | Option.none => builder

/-! ## `create_fungible` (src/create/methods.rs, lines 60-187) -/

/-- The SPL token program id (`TOKEN_PROGRAM_ID`); abstract. -/
def TOKEN_PROGRAM_ID : Pubkey := 0

/-- `spl_token::ID` is the same program id as `TOKEN_PROGRAM_ID`. -/
def SPL_TOKEN_ID : Pubkey := TOKEN_PROGRAM_ID

/-- Byte size of an SPL mint account (`MINT_LAYOUT`). -/
def MINT_LAYOUT : Nat := 82

/-- `mpl_token_metadata::types::DataV2`, with creators/collection/uses kept
abstract (their structure is irrelevant to the claims). -/
structure DataV2 where
  name : String
  symbol : String
  uri : String
  seller_fee_basis_points : Nat
  creators : Option (List Pubkey)
  collection : Option Pubkey
  uses : Option Nat
deriving DecidableEq, Repr

/-- `FungibleFields` (lines 69-74): the metadata-file payload of `create_fungible`. -/
structure FungibleFields where
  name : String
  symbol : String
  uri : String
deriving DecidableEq, Repr

/-- `impl From<FungibleFields> for DataV2` (lines 76-88). -/
def DataV2.ofFungibleFields (value : FungibleFields) : DataV2 :=
  { name := value.name, symbol := value.symbol, uri := value.uri,
    seller_fee_basis_points := 0, creators := Option.none,
    collection := Option.none, uses := Option.none }

/-- The instructions `create_fungible` can push (lines 100-165), with the
account arguments each constructor receives in the source. -/
inductive Instruction where
  | createAccount (funder newAccount : Pubkey) (lamports space : Nat) (owner : Pubkey)
  | initMint (tokenProgram mint mintAuthority : Pubkey)
      (freezeAuthority : Option Pubkey) (decimals : Nat)
  | createAssociatedTokenAccount (funder wallet mint tokenProgram : Pubkey)
  | mintTo (tokenProgram mint account owner : Pubkey) (amount : Nat)
  | createMetadataAccountV3 (metadata mint mintAuthority payer updateAuthority : Pubkey)
      (data : DataV2) (isMutable : Bool)
deriving DecidableEq, Repr

/-- Constructor tag of an instruction, for stating instruction-order facts. -/
inductive InstructionKind where
  | createAccount
  | initMint
  | createAssociatedTokenAccount
  | mintTo
  | createMetadataAccountV3
deriving DecidableEq, Repr

/-- Tag of an `Instruction`. -/
def Instruction.kind : Instruction → InstructionKind
  | .createAccount _ _ _ _ _ => .createAccount
  | .initMint _ _ _ _ _ => .initMint
  | .createAssociatedTokenAccount _ _ _ _ => .createAssociatedTokenAccount
  | .mintTo _ _ _ _ _ => .mintTo
  | .createMetadataAccountV3 _ _ _ _ _ _ _ => .createMetadataAccountV3

/-- Rust's saturating float-to-`u64` cast (`expr as u64`): truncate toward
zero, clamp into `[0, 2^64 - 1]`.  The `f64` value being cast is modelled as
an exact rational. -/
def rust_f64_as_u64 (x : ℚ) : Nat :=
  min (Int.toNat ⌊x⌋) (2 ^ 64 - 1)

/-- Greatest `e` with `2 ^ e ≤ n` (0 for `n ≤ 1`), by fuel-bounded structural
recursion so that it reduces in the kernel with shallow call depth. -/
def natLog2go : Nat → Nat → Nat
  | 0, _ => 0
  | fuel + 1, n => if n ≤ 1 then 0 else natLog2go fuel (n / 2) + 1

/-- `⌊log2 n⌋` for `n ≥ 1` (0 for `n ≤ 1`), peeling 64 bits per step to keep
the recursion shallow on large inputs; the fuel `n` dominates the number of
64-bit chunks. -/
def natLog2bigGo : Nat → Nat → Nat
  | 0, _ => 0
  | fuel + 1, n =>
    if n < 18446744073709551616 then natLog2go 64 n
    else natLog2bigGo fuel (n / 18446744073709551616) + 64

/-- Greatest `e` with `2 ^ e ≤ n`, i.e. `⌊log2 n⌋` for `n ≥ 1`. -/
def natLog2 (n : Nat) : Nat := natLog2bigGo n n

/-- `2 ^ k` over `ℤ` by square-and-multiply with fuel-bounded structural
recursion, so that large powers reduce in the kernel with logarithmic call
depth; `pow2_eq` below proves it equal to `2 ^ k`. -/
def pow2go : Nat → Nat → Int
  | 0, _ => 1
  | fuel + 1, k =>
    if k = 0 then 1
    else
      let h := pow2go fuel (k / 2)
      (if k % 2 = 1 then 2 else 1) * (h * h)

/-- `2 ^ k` over `ℤ` (see `pow2_eq`). -/
def pow2 (k : Nat) : Int := pow2go k k

/-- Round `n / d` (for `d > 0`) to the nearest integer, ties to the even
integer; `Int.ediv` / `Int.emod` give the floor quotient and a remainder in
`[0, d)`. -/
def divRoundHalfEven (n d : Int) : Int :=
  let f := Int.ediv n d
  let r := Int.emod n d
  if 2 * r < d then f
  else if d < 2 * r then f + 1
  else if Int.emod f 2 = 0 then f else f + 1

/-- IEEE-754 binary64 rounding (round to nearest, ties to even) on the
fixed-point view: the input integer `n` stands for the value `n * 2 ^ (-1200)`
and the result is the nearest double in the same units.  For `n ≠ 0` the
magnitude exponent is `e = ⌊log2 |n * 2 ^ (-1200)|⌋ = natLog2 |n| - 1200`
exactly; the rounding step is `2 ^ (e - 52)` for a normal magnitude and
`2 ^ (-1074)` in the subnormal range (the `max` with `-1074`), so the step in
fixed-point units is `2 ^ s` with `s = q + 1200 > 0`. -/
def f64RoundFix (n : Int) : Int :=
  if n = 0 then 0
  else
    let e : Int := (natLog2 n.natAbs : Int) - 1200
    let q : Int := max (e - 52) (-1074)
    let s : Nat := (q + 1200).toNat
    divRoundHalfEven n (pow2 s) * pow2 s

/-- IEEE-754 binary64 round-to-nearest-even of an exact rational.  The input
is taken through the fixed-point view `⌊x * 2 ^ 1200⌋`, which is exact for
every `x` with at most 1200 fractional bits.  That covers every product this
program ever rounds: each multiply in `create_fungible`'s supply computation
takes an arbitrary finite double (at most 1074 fractional bits) times a
double of magnitude at least 1 (at most 52 fractional bits), so the exact
product has at most 1126 fractional bits.  Magnitudes beyond the largest
finite double stay on the (coarse) grid instead of collapsing to infinity:
the program only casts the result with the saturating `as u64`, which sends
both alike to `u64::MAX`. -/
def roundF64 (x : ℚ) : ℚ :=
  (f64RoundFix ⌊x * 2 ^ 1200⌋ : ℚ) / 2 ^ 1200

/-- The IEEE-754 `f64` multiply: the exact product, correctly rounded. -/
def f64_mul (a b : ℚ) : ℚ := roundF64 (a * b)

/-- Loop body of compiler-rt's `__powidf2` (`recomputed *= recomputed; if
(b & 1) r *= recomputed` while `b >>= 1` is non-zero), each multiply rounded.
The fuel (`fuel ≥ b` dominates the iteration count) only bounds the loop; its
equation unfolds one iteration at a time. -/
def f64_powi_go (fuel : Nat) (recomputed r : ℚ) (b : Nat) : ℚ :=
  if fuel = 0 then r
  else if b / 2 = 0 then r
  else
    let rec2 := f64_mul recomputed recomputed
    f64_powi_go (fuel - 1) rec2 (if b / 2 % 2 = 1 then f64_mul r rec2 else r) (b / 2)
termination_by fuel
decreasing_by omega


/-- `f64::powi` with a non-negative runtime exponent, as lowered to
compiler-rt's `__powidf2`: square-and-multiply over the bits of `b`, every
multiply correctly rounded (`r` starts at `a` for odd `b`, else at `1`). -/
def f64_powi (a : ℚ) (b : Nat) : ℚ :=
  f64_powi_go b a (if b % 2 = 1 then a else 1) b

/-- Caller-controlled inputs of `create_fungible` that the instruction list
depends on.  `initial_supply : Option<f64>` holds the exact rational value of
the `f64` the caller passed; the arithmetic performed on it is the rounded
`f64` arithmetic above. -/
structure CreateFungibleArgs where
  decimals : Nat
  initial_supply : Option ℚ
  immutable : Bool

/-- Results of the external calls `create_fungible` makes before building its
instruction list: the parsed keypair's pubkey, the fresh mint keypair's
pubkey, the rent-exemption balance returned by the RPC node, the PDA / ATA
derivation functions, and the metadata-file contents. -/
structure CreateFungibleEnv where
  keypair : Pubkey
  mint : Pubkey
  min_rent : Nat
  derive_metadata_pda : Pubkey → Pubkey
  get_associated_token_address : Pubkey → Pubkey → Pubkey
  data : FungibleFields

/-- Lines 100-165 of `src/create/methods.rs`: the instruction vector built by
`create_fungible`, with each `instructions.push(..)` mirrored by a
`List.concat`. -/
def create_fungible_instructions (env : CreateFungibleEnv) (args : CreateFungibleArgs) :
    List Instruction :=
  let metadata_pubkey := env.derive_metadata_pda env.mint
  let instructions : List Instruction := []
  let create_mint_account_ix :=
    Instruction.createAccount env.keypair env.mint env.min_rent MINT_LAYOUT TOKEN_PROGRAM_ID
  let instructions := instructions.concat create_mint_account_ix
  let init_mint_ix :=
    Instruction.initMint TOKEN_PROGRAM_ID env.mint env.keypair
      (Option.some env.keypair) args.decimals
  let instructions := instructions.concat init_mint_ix
  let assoc := env.get_associated_token_address env.keypair env.mint
  let create_assoc_account_ix :=
    Instruction.createAssociatedTokenAccount env.keypair env.keypair env.mint SPL_TOKEN_ID
  let instructions := instructions.concat create_assoc_account_ix
  let instructions :=
    match args.initial_supply with
    | Option.some initial_supply =>
        let supply := rust_f64_as_u64 (f64_mul initial_supply (f64_powi 10 args.decimals))
        instructions.concat
          (Instruction.mintTo TOKEN_PROGRAM_ID env.mint assoc env.keypair supply)
    | Option.none => instructions
  let metadata_ix :=
    Instruction.createMetadataAccountV3 metadata_pubkey env.mint env.keypair env.keypair
      env.keypair (DataV2.ofFungibleFields env.data) (!args.immutable)
  instructions.concat metadata_ix

/-! ## `set_token_standard_one` (src/update/token_standard.rs, lines 23-61) -/

/-- `SetTokenStandardArgs` (lines 8-12); the `client: Arc<RpcClient>` is
modelled by `StoEnv`, and of the keypair only its pubkey is observable here. -/
structure SetTokenStandardArgs where
  keypair : Pubkey
  mint_account : String

/-- The accounts of the `SetTokenStandard` instruction (lines 38-44). -/
structure SetTokenStandardIx where
  metadata : Pubkey
  update_authority : Pubkey
  mint : Pubkey
  edition : Option Pubkey
deriving DecidableEq, Repr

/-- The transaction built by `Transaction::new_signed_with_payer` (lines 51-56). -/
structure Transaction where
  instructions : List SetTokenStandardIx
  payer : Option Pubkey
  signers : List Pubkey
  recent_blockhash : Blockhash
deriving DecidableEq, Repr

/-- One external call visible at the boundary of `set_token_standard_one`.
`cacheWrite` is a `ProgressCache` record; the function never emits one, which
is what claim C2 asserts. -/
inductive ExtCall where
  | getAccountWithCommitment (key : Pubkey)
  | getLatestBlockhash
  | sendAndConfirmTransaction (tx : Transaction)
  | cacheWrite (target : TargetId) (outcome : Outcome)
deriving DecidableEq, Repr

/-- Is this call the externally-visible mutation attempt (a transaction send)? -/
def ExtCall.isSend : ExtCall → Bool
  | .sendAndConfirmTransaction _ => true
  | _ => false

/-- Is this call a `ProgressCache` mutation? -/
def ExtCall.isCacheWrite : ExtCall → Bool
  | .cacheWrite _ _ => true
  | _ => false

/-- Results of the external calls `set_token_standard_one` can make:
`Pubkey::from_str`, the PDA derivations, and the three `RpcClient` methods. -/
structure StoEnv where
  pubkey_from_str : String → Except String Pubkey
  derive_metadata_pda : Pubkey → Pubkey
  derive_edition_pda : Pubkey → Pubkey
  get_account_with_commitment : Pubkey → Except String (Option Unit)
  get_latest_blockhash : Except String Blockhash
  send_and_confirm_transaction : Transaction → Except String Signature

/-- Lines 38-56: the instruction and transaction built once the mint pubkey,
the edition-account lookup result and the blockhash are in hand. -/
def set_token_standard_tx (env : StoEnv) (args : SetTokenStandardArgs)
    (mint_pubkey : Pubkey) (value : Option Unit) (recent_blockhash : Blockhash) :
    Transaction :=
  let update_authority := args.keypair
  let metadata_pubkey := env.derive_metadata_pda mint_pubkey
  let edition_pubkey := env.derive_edition_pda mint_pubkey
  let edition_opt := value.map fun _ => edition_pubkey
  let ix : SetTokenStandardIx :=
    { metadata := metadata_pubkey, update_authority := update_authority,
      mint := mint_pubkey, edition := edition_opt }
  { instructions := [ix], payer := Option.some update_authority,
    signers := [args.keypair], recent_blockhash := recent_blockhash }

/-- Lines 23-61 of `src/update/token_standard.rs`: parse the mint, look up the
edition account, fetch a blockhash, build and send the transaction; each
`map_err` wraps the step's error as `ActionFailed(mint_account, reason)` and
`?` returns it immediately.  The second component is the trace of external
calls actually performed, in order. -/
def set_token_standard_one (env : StoEnv) (args : SetTokenStandardArgs) :
    Except ActionError Signature × List ExtCall :=
  match env.pubkey_from_str args.mint_account with
  | Except.error e =>
      (Except.error (ActionError.actionFailed args.mint_account e), [])
  | Except.ok mint_pubkey =>
    let edition_pubkey := env.derive_edition_pda mint_pubkey
    match env.get_account_with_commitment edition_pubkey with
    | Except.error e =>
        (Except.error (ActionError.actionFailed args.mint_account e),
          [ExtCall.getAccountWithCommitment edition_pubkey])
    | Except.ok value =>
      match env.get_latest_blockhash with
      | Except.error e =>
          (Except.error (ActionError.actionFailed args.mint_account e),
            [ExtCall.getAccountWithCommitment edition_pubkey, ExtCall.getLatestBlockhash])
      | Except.ok recent_blockhash =>
        let tx := set_token_standard_tx env args mint_pubkey value recent_blockhash
        match env.send_and_confirm_transaction tx with
        | Except.error e =>
            (Except.error (ActionError.actionFailed args.mint_account e),
              [ExtCall.getAccountWithCommitment edition_pubkey, ExtCall.getLatestBlockhash,
                ExtCall.sendAndConfirmTransaction tx])
        | Except.ok sig =>
            (Except.ok sig,
              [ExtCall.getAccountWithCommitment edition_pubkey, ExtCall.getLatestBlockhash,
                ExtCall.sendAndConfirmTransaction tx])

/-- `RunActionArgs` as consumed by `SetTokenStandardAll::action` (lines
71-79): the fields the wrapper reads, plus the payer / new-value fields of the
batch context it ignores. -/
structure RunActionArgs where
  keypair : Pubkey
  payer : Option Pubkey
  mint_account : String
  new_value : NewValue

/-- The `Action` implementation for `SetTokenStandardAll` (lines 63-80). -/
structure SetTokenStandardAll where

/-- `SetTokenStandardAll::name` (lines 67-69). -/
def SetTokenStandardAll.name : String := "set-token-standard-all"

/-- `SetTokenStandardAll::action` (lines 71-79): delegate to
`set_token_standard_one` on the same client/keypair/mint and discard the
signature with `.map(|_| ())`. -/
def SetTokenStandardAll.action (env : StoEnv) (args : RunActionArgs) :
    Except ActionError Unit × List ExtCall :=
  let r := set_token_standard_one env
    { keypair := args.keypair, mint_account := args.mint_account }
  (r.1.map fun _ => (), r.2)

/-! ## Theorems for claim C8 -/

/-- C8: for every `CreateMasterEditionArgs`, `create_master_edition` panics
with message "Max supply: must be greater than -1" whenever `max_supply ≤ -2`;
it builds the instruction with no `max_supply` field when `max_supply = -1`,
and with `max_supply` cast to `u64` when `max_supply ≥ 0`; consequently the
panic branch is unreachable under the precondition `max_supply ≥ -1`. -/
theorem create_master_edition_max_supply_spec
    (edition mint ua ma md payer : Pubkey) (x : Int) :
    (x ≤ -2 →
      create_master_edition_ix edition mint ua ma md payer x =
        Except.error "Max supply: must be greater than -1") ∧
    (x = -1 → ∃ ix, create_master_edition_ix edition mint ua ma md payer x = Except.ok ix ∧
      ix.max_supply = Option.none) ∧
    (0 ≤ x → ∃ ix, create_master_edition_ix edition mint ua ma md payer x = Except.ok ix ∧
      ix.max_supply = Option.some x.toNat) ∧
    (-1 ≤ x → ∀ msg, create_master_edition_ix edition mint ua ma md payer x ≠ Except.error msg) := by
  refine ⟨?_, ?_, ?_, ?_⟩
  · intro hx
    simp only [create_master_edition_ix, max_supply_match, if_pos hx, Except.map]
  · rintro rfl
    exact ⟨_, rfl, rfl⟩
  · intro hx
    have h1 : ¬ x ≤ -2 := by omega
    have h2 : ¬ x = -1 := by omega
    refine ⟨{ edition := edition, mint := mint, update_authority := ua, mint_authority := ma,
              metadata := md, payer := payer, max_supply := Option.some x.toNat }, ?_, rfl⟩
    simp [create_master_edition_ix, max_supply_match, if_neg h1, if_neg h2, Except.map]
  · intro hx msg
    have h1 : ¬ x ≤ -2 := by omega
    by_cases h2 : x = -1 <;>
      simp [create_master_edition_ix, max_supply_match, if_neg h1, h2, Except.map]

/-- Witness for C8 at concrete inputs: `max_supply = -1` hits the no-field
branch and the panic-freedom consequence. -/
theorem create_master_edition_max_supply_spec_witness :
    ((-1 : Int) = -1 → ∃ ix, create_master_edition_ix 1 2 3 4 5 6 (-1) = Except.ok ix ∧
      ix.max_supply = Option.none) ∧
    ((-1 : Int) ≤ -1 → ∀ msg, create_master_edition_ix 1 2 3 4 5 6 (-1) ≠ Except.error msg) :=
  ⟨(create_master_edition_max_supply_spec 1 2 3 4 5 6 (-1)).2.1,
   (create_master_edition_max_supply_spec 1 2 3 4 5 6 (-1)).2.2.2⟩

/-! ## Theorems for claim C9 -/

/-- `pow2` computes `2 ^ k`. -/
theorem pow2go_eq : ∀ fuel k, k ≤ fuel → pow2go fuel k = 2 ^ k := by
  intro fuel
  induction fuel with
  | zero =>
    intro k hk
    obtain rfl : k = 0 := by omega
    rfl
  | succ f ih =>
    intro k hk
    rcases Nat.eq_zero_or_pos k with rfl | hkpos
    · rfl
    · have hk2 : k / 2 ≤ f := by omega
      have hrec := ih (k / 2) hk2
      rw [pow2go]
      simp only [if_neg (show ¬ k = 0 by omega), hrec]
      rcases Nat.even_or_odd k with he | ho
      · have h0 : k % 2 = 0 := Nat.even_iff.mp he
        rw [if_neg (by omega), one_mul, ← pow_add]
        congr 1
        omega
      · have h1 : k % 2 = 1 := Nat.odd_iff.mp ho
        rw [if_pos h1, ← pow_add, ← pow_succ']
        congr 1
        omega

/-- `pow2 k = 2 ^ k`. -/
theorem pow2_eq (k : Nat) : pow2 k = 2 ^ k := pow2go_eq k k le_rfl

/-- Splitting a power of two over ℚ, for relating different scales without
expanding the numerals. -/
theorem qpow_two_split (m n k : Nat) (h : m = n + k) :
    (2 : ℚ) ^ m = 2 ^ n * 2 ^ k := by
  rw [h, pow_add]

/-- Evaluation rule for `roundF64` at an input whose fixed-point view is the
integer `n`. -/
theorem roundF64_eval (x : ℚ) (n : Int) (hn : x * 2 ^ 1200 = (n : ℚ)) :
    roundF64 x = (f64RoundFix n : ℚ) / 2 ^ 1200 := by
  rw [roundF64, hn, Int.floor_intCast]

set_option maxRecDepth 8000 in
set_option maxHeartbeats 1000000 in
/-- C9 counterexample: at `initial_supply = 500000000000000.375` (an exactly
representable double, `4000000000000003 * 2 ^ (-3)`) and one decimal, the
exact product is `5000000000000003.75`, whose u64 truncation is
`5000000000000003`; but the `f64` multiply rounds the product up to
`5000000000000004` (the unit in the last place is 1 on `[2^52, 2^53)`), so
the program mints `5000000000000004`: the claimed amount formula fails on the
code. -/
theorem create_fungible_exact_truncation_counterexample :
    Instruction.mintTo TOKEN_PROGRAM_ID 2 102 1 5000000000000004 ∈
      create_fungible_instructions
        ⟨1, 2, 100, (fun p => p + 10), (fun a b => a * 100 + b), ⟨"n", "s", "u"⟩⟩
        ⟨1, Option.some ((4000000000000003 : ℚ) / 8), false⟩ ∧
    Instruction.mintTo TOKEN_PROGRAM_ID 2 102 1 5000000000000003 ∉
      create_fungible_instructions
        ⟨1, 2, 100, (fun p => p + 10), (fun a b => a * 100 + b), ⟨"n", "s", "u"⟩⟩
        ⟨1, Option.some ((4000000000000003 : ℚ) / 8), false⟩ ∧
    rust_f64_as_u64 ((4000000000000003 : ℚ) / 8 * (10 : ℚ) ^ (1 : Nat)) =
      5000000000000003 := by
  have hp : f64_powi 10 1 = 10 := by
    simp [f64_powi, f64_powi_go]
  have hn : (4000000000000003 : ℚ) / 8 * 10 * 2 ^ 1200 =
      ((20000000000000015 * pow2 1198 : ℤ) : ℚ) := by
    rw [pow2_eq]
    push_cast
    rw [qpow_two_split 1200 2 1198 (by norm_num)]
    ring
  have hfix : f64RoundFix (20000000000000015 * pow2 1198) =
      5000000000000004 * pow2 1200 := by
    decide
  have hmul : f64_mul ((4000000000000003 : ℚ) / 8) 10 = 5000000000000004 := by
    simp only [f64_mul]
    rw [roundF64_eval _ _ hn, hfix, pow2_eq]
    push_cast
    rw [mul_div_assoc, div_self (pow_ne_zero 1200 two_ne_zero), mul_one]
  have hamount : rust_f64_as_u64
      (f64_mul ((4000000000000003 : ℚ) / 8) (f64_powi 10 1)) = 5000000000000004 := by
    rw [hp, hmul]
    simp only [rust_f64_as_u64, Int.floor_ofNat]
    decide
  refine ⟨?_, ?_, ?_⟩
  · simp [create_fungible_instructions, hamount]
  · simp [create_fungible_instructions, hamount]
  · have hfl : ⌊(4000000000000003 : ℚ) / 8 * (10 : ℚ) ^ (1 : Nat)⌋ = 5000000000000003 := by
      rw [Int.floor_eq_iff]
      constructor <;> norm_num
    simp only [rust_f64_as_u64, hfl]
    decide

/-- C9 (amended): the transaction built by `create_fungible` contains a
`mint_to` instruction iff `initial_supply` is `Some`; when present the minted
amount is the saturating u64 truncation of the double-precision product
`initial_supply * 10_f64.powi(decimals)` — the exact product rounded to the
nearest binary64 before the cast, not the truncation of the exact product —
and the instruction order is: create mint account, initialize the mint,
create associated token account, [mint_to], create metadata. -/
theorem create_fungible_instructions_f64_spec (env : CreateFungibleEnv)
    (args : CreateFungibleArgs) :
    ((∃ tp m a o amt, Instruction.mintTo tp m a o amt ∈ create_fungible_instructions env args) ↔
      args.initial_supply.isSome) ∧
    (∀ s, args.initial_supply = Option.some s →
      Instruction.mintTo TOKEN_PROGRAM_ID env.mint
          (env.get_associated_token_address env.keypair env.mint) env.keypair
          (rust_f64_as_u64 (f64_mul s (f64_powi 10 args.decimals))) ∈
        create_fungible_instructions env args) ∧
    ((create_fungible_instructions env args).map Instruction.kind =
      [InstructionKind.createAccount, InstructionKind.initMint,
        InstructionKind.createAssociatedTokenAccount] ++
      (if args.initial_supply.isSome then [InstructionKind.mintTo] else []) ++
      [InstructionKind.createMetadataAccountV3]) := by
  have hmem : ∀ t, args.initial_supply = Option.some t →
      Instruction.mintTo TOKEN_PROGRAM_ID env.mint
          (env.get_associated_token_address env.keypair env.mint) env.keypair
          (rust_f64_as_u64 (f64_mul t (f64_powi 10 args.decimals))) ∈
        create_fungible_instructions env args := by
    intro t ht
    simp [create_fungible_instructions, ht]
  refine ⟨?_, hmem, ?_⟩
  · rcases h : args.initial_supply with _ | s <;>
      simp [create_fungible_instructions, h]
  · rcases h : args.initial_supply with _ | s <;>
      simp [create_fungible_instructions, h, Instruction.kind]

set_option maxRecDepth 8000 in
set_option maxHeartbeats 1000000 in
/-- Witness for C9: with `initial_supply = 5/2` and two decimals, the power
and both products are exactly representable, so nothing rounds and the minted
amount is `250`. -/
theorem create_fungible_instructions_f64_spec_witness :
    ((⟨2, Option.some ((5 : ℚ) / 2), false⟩ : CreateFungibleArgs).initial_supply =
        Option.some ((5 : ℚ) / 2)) ∧
    Instruction.mintTo TOKEN_PROGRAM_ID 2 ((fun a b => a * 100 + b) (1 : Pubkey) 2) 1
        (rust_f64_as_u64 (f64_mul ((5 : ℚ) / 2) (f64_powi 10 2))) ∈
      create_fungible_instructions
        ⟨1, 2, 100, (fun p => p + 10), (fun a b => a * 100 + b), ⟨"n", "s", "u"⟩⟩
        ⟨2, Option.some ((5 : ℚ) / 2), false⟩ ∧
    rust_f64_as_u64 (f64_mul ((5 : ℚ) / 2) (f64_powi 10 2)) = 250 := by
  have h1 : f64_mul (10 : ℚ) 10 = 100 := by
    have hn : (10 : ℚ) * 10 * 2 ^ 1200 = ((100 * pow2 1200 : ℤ) : ℚ) := by
      rw [pow2_eq]
      push_cast
      ring
    have hfix : f64RoundFix (100 * pow2 1200) = 100 * pow2 1200 := by decide
    simp only [f64_mul]
    rw [roundF64_eval _ _ hn, hfix, pow2_eq]
    push_cast
    rw [mul_div_assoc, div_self (pow_ne_zero 1200 two_ne_zero), mul_one]
  have h2 : f64_mul (1 : ℚ) 100 = 100 := by
    have hn : (1 : ℚ) * 100 * 2 ^ 1200 = ((100 * pow2 1200 : ℤ) : ℚ) := by
      rw [pow2_eq]
      push_cast
      ring
    have hfix : f64RoundFix (100 * pow2 1200) = 100 * pow2 1200 := by decide
    simp only [f64_mul]
    rw [roundF64_eval _ _ hn, hfix, pow2_eq]
    push_cast
    rw [mul_div_assoc, div_self (pow_ne_zero 1200 two_ne_zero), mul_one]
  have hp : f64_powi 10 2 = 100 := by
    simp [f64_powi, f64_powi_go, h1, h2]
  have h3 : f64_mul ((5 : ℚ) / 2) 100 = 250 := by
    have hn : (5 : ℚ) / 2 * 100 * 2 ^ 1200 = ((250 * pow2 1200 : ℤ) : ℚ) := by
      rw [pow2_eq]
      push_cast
      ring
    have hfix : f64RoundFix (250 * pow2 1200) = 250 * pow2 1200 := by decide
    simp only [f64_mul]
    rw [roundF64_eval _ _ hn, hfix, pow2_eq]
    push_cast
    rw [mul_div_assoc, div_self (pow_ne_zero 1200 two_ne_zero), mul_one]
  have hamount : rust_f64_as_u64 (f64_mul ((5 : ℚ) / 2) (f64_powi 10 2)) = 250 := by
    rw [hp, h3]
    simp only [rust_f64_as_u64, Int.floor_ofNat]
    decide
  exact ⟨rfl,
    (create_fungible_instructions_f64_spec
        ⟨1, 2, 100, (fun p => p + 10), (fun a b => a * 100 + b), ⟨"n", "s", "u"⟩⟩
        ⟨2, Option.some ((5 : ℚ) / 2), false⟩).2.1 ((5 : ℚ) / 2) rfl,
    hamount⟩

/-! ## Case analysis of `set_token_standard_one` (shared helper) -/

/-- Exhaustive description of `set_token_standard_one`'s result and trace in
terms of the outcomes of its four external steps. -/
theorem set_token_standard_one_eq (env : StoEnv) (args : SetTokenStandardArgs) :
    (∃ e, env.pubkey_from_str args.mint_account = Except.error e ∧
      set_token_standard_one env args =
        (Except.error (ActionError.actionFailed args.mint_account e), [])) ∨
    (∃ pk, env.pubkey_from_str args.mint_account = Except.ok pk ∧
      ((∃ e, env.get_account_with_commitment (env.derive_edition_pda pk) = Except.error e ∧
        set_token_standard_one env args =
          (Except.error (ActionError.actionFailed args.mint_account e),
            [ExtCall.getAccountWithCommitment (env.derive_edition_pda pk)])) ∨
      (∃ val, env.get_account_with_commitment (env.derive_edition_pda pk) = Except.ok val ∧
        ((∃ e, env.get_latest_blockhash = Except.error e ∧
          set_token_standard_one env args =
            (Except.error (ActionError.actionFailed args.mint_account e),
              [ExtCall.getAccountWithCommitment (env.derive_edition_pda pk),
                ExtCall.getLatestBlockhash])) ∨
        (∃ bh, env.get_latest_blockhash = Except.ok bh ∧
          ((∃ e, env.send_and_confirm_transaction
                (set_token_standard_tx env args pk val bh) = Except.error e ∧
            set_token_standard_one env args =
              (Except.error (ActionError.actionFailed args.mint_account e),
                [ExtCall.getAccountWithCommitment (env.derive_edition_pda pk),
                  ExtCall.getLatestBlockhash,
                  ExtCall.sendAndConfirmTransaction
                    (set_token_standard_tx env args pk val bh)])) ∨
          (∃ sig, env.send_and_confirm_transaction
                (set_token_standard_tx env args pk val bh) = Except.ok sig ∧
            set_token_standard_one env args =
              (Except.ok sig,
                [ExtCall.getAccountWithCommitment (env.derive_edition_pda pk),
                  ExtCall.getLatestBlockhash,
                  ExtCall.sendAndConfirmTransaction
                    (set_token_standard_tx env args pk val bh)])))))))) := by
  rcases h1 : env.pubkey_from_str args.mint_account with e1 | pk
  · exact Or.inl ⟨e1, rfl, by simp [set_token_standard_one, h1]⟩
  · refine Or.inr ⟨pk, rfl, ?_⟩
    rcases h2 : env.get_account_with_commitment (env.derive_edition_pda pk) with e2 | val
    · exact Or.inl ⟨e2, rfl, by simp [set_token_standard_one, h1, h2]⟩
    · refine Or.inr ⟨val, rfl, ?_⟩
      rcases h3 : env.get_latest_blockhash with e3 | bh
      · exact Or.inl ⟨e3, rfl, by simp [set_token_standard_one, h1, h2, h3]⟩
      · refine Or.inr ⟨bh, rfl, ?_⟩
        rcases h4 : env.send_and_confirm_transaction (set_token_standard_tx env args pk val bh)
          with e4 | sig
        · exact Or.inl ⟨e4, rfl, by simp [set_token_standard_one, h1, h2, h3, h4]⟩
        · exact Or.inr ⟨sig, rfl, by simp [set_token_standard_one, h1, h2, h3, h4]⟩

/-! ## Theorems for claim C2 -/

/-- C2: for every environment and target, the Action operation
(`set_token_standard_one` and the `SetTokenStandardAll::action` wrapper)
performs at most one externally-visible mutation attempt (a transaction
send), and exactly one when it succeeds; it repeats no external call (no
internal retry loop) and returns a failed send's failure immediately; and it
performs no mutation of the ProgressCache. The wrapper delegates to
`set_token_standard_one` with the same trace. -/
theorem set_token_standard_action_single_attempt (env : StoEnv) (args : RunActionArgs) :
    ∀ r, r = set_token_standard_one env
        { keypair := args.keypair, mint_account := args.mint_account } →
    r.2.countP ExtCall.isSend ≤ 1 ∧
    (∀ sig, r.1 = Except.ok sig → r.2.countP ExtCall.isSend = 1) ∧
    (∀ c ∈ r.2, c.isCacheWrite = false) ∧
    r.2.Nodup ∧
    (∀ tx e, env.send_and_confirm_transaction tx = Except.error e →
      ExtCall.sendAndConfirmTransaction tx ∈ r.2 →
      r.1 = Except.error (ActionError.actionFailed args.mint_account e)) ∧
    (SetTokenStandardAll.action env args).2 = r.2 ∧
    (SetTokenStandardAll.action env args).1 = r.1.map fun _ => () := by
  intro r hr
  rcases set_token_standard_one_eq env ⟨args.keypair, args.mint_account⟩ with
    ⟨e1, h1, heq⟩ | ⟨pk, h1, ⟨e2, h2, heq⟩ | ⟨val, h2, ⟨e3, h3, heq⟩ |
      ⟨bh, h3, ⟨e4, h4, heq⟩ | ⟨sig, h4, heq⟩⟩⟩⟩ <;>
    subst hr <;>
    refine ⟨?_, ?_, ?_, ?_, ?_, ?_, ?_⟩ <;>
    simp only [SetTokenStandardAll.action, heq, List.countP_cons, List.countP_nil,
      ExtCall.isSend, ExtCall.isCacheWrite, List.mem_cons, List.not_mem_nil,
      List.nodup_cons, List.nodup_nil, Except.map] <;>
    simp_all
  · -- failed send surfaces that failure: identify the sent transaction
    intro tx e he htx
    rw [htx] at he
    rw [he] at h4
    exact ((Except.error.injEq _ _).mp h4).symm
  · -- successful run: the single send cannot also have failed
    intro tx e he htx
    rw [htx] at he
    rw [he] at h4
    cases h4

/-- Witness for C2: in an environment where every step succeeds, the trace of
the concrete run contains exactly one transaction send. -/
theorem set_token_standard_action_single_attempt_witness :
    (set_token_standard_one
        { pubkey_from_str := fun _ => Except.ok 7,
          derive_metadata_pda := fun p => p + 1,
          derive_edition_pda := fun p => p + 2,
          get_account_with_commitment := fun _ => Except.ok (Option.some ()),
          get_latest_blockhash := Except.ok 42,
          send_and_confirm_transaction := fun _ => Except.ok "sig" }
        { keypair := 5, mint_account := "mintA" }).2.countP ExtCall.isSend = 1 :=
  ((set_token_standard_action_single_attempt
      { pubkey_from_str := fun _ => Except.ok 7,
        derive_metadata_pda := fun p => p + 1,
        derive_edition_pda := fun p => p + 2,
        get_account_with_commitment := fun _ => Except.ok (Option.some ()),
        get_latest_blockhash := Except.ok 42,
        send_and_confirm_transaction := fun _ => Except.ok "sig" }
      { keypair := 5, payer := Option.none, mint_account := "mintA",
        new_value := NewValue.none }) _ rfl).2.1 "sig" rfl

/-! ## Theorems for claim C3 -/

/-- C3: every failure of `set_token_standard_one` — unparseable mint string,
RPC error fetching the edition account, blockhash retrieval error, or
transaction send/confirm error — is returned as
`ActionError::ActionFailed(mint_account, reason)` carrying the failing
TargetId and the step's error text; and it returns a signature exactly when
all four steps succeed. -/
theorem set_token_standard_one_error_classification (env : StoEnv)
    (args : SetTokenStandardArgs) :
    (∀ e, env.pubkey_from_str args.mint_account = Except.error e →
      (set_token_standard_one env args).1 =
        Except.error (ActionError.actionFailed args.mint_account e)) ∧
    (∀ pk, env.pubkey_from_str args.mint_account = Except.ok pk →
      ∀ e, env.get_account_with_commitment (env.derive_edition_pda pk) = Except.error e →
      (set_token_standard_one env args).1 =
        Except.error (ActionError.actionFailed args.mint_account e)) ∧
    (∀ pk val, env.pubkey_from_str args.mint_account = Except.ok pk →
      env.get_account_with_commitment (env.derive_edition_pda pk) = Except.ok val →
      ∀ e, env.get_latest_blockhash = Except.error e →
      (set_token_standard_one env args).1 =
        Except.error (ActionError.actionFailed args.mint_account e)) ∧
    (∀ pk val bh, env.pubkey_from_str args.mint_account = Except.ok pk →
      env.get_account_with_commitment (env.derive_edition_pda pk) = Except.ok val →
      env.get_latest_blockhash = Except.ok bh →
      ∀ e, env.send_and_confirm_transaction (set_token_standard_tx env args pk val bh) =
        Except.error e →
      (set_token_standard_one env args).1 =
        Except.error (ActionError.actionFailed args.mint_account e)) ∧
    (∀ e, (set_token_standard_one env args).1 = Except.error e →
      ∃ reason, e = ActionError.actionFailed args.mint_account reason) ∧
    (∀ sig, (set_token_standard_one env args).1 = Except.ok sig →
      ∃ pk val bh, env.pubkey_from_str args.mint_account = Except.ok pk ∧
        env.get_account_with_commitment (env.derive_edition_pda pk) = Except.ok val ∧
        env.get_latest_blockhash = Except.ok bh ∧
        env.send_and_confirm_transaction (set_token_standard_tx env args pk val bh) =
          Except.ok sig) := by
  rcases set_token_standard_one_eq env args with
    ⟨e1, h1, heq⟩ | ⟨pk, h1, ⟨e2, h2, heq⟩ | ⟨val, h2, ⟨e3, h3, heq⟩ |
      ⟨bh, h3, ⟨e4, h4, heq⟩ | ⟨sig, h4, heq⟩⟩⟩⟩ <;>
    refine ⟨?_, ?_, ?_, ?_, ?_, ?_⟩ <;>
    simp only [heq] <;>
    simp_all <;>
    intros <;>
    simp_all

/-- Witness for C3: with a mint string the parser rejects, the concrete run
returns `ActionFailed` carrying that mint string and the parse error text. -/
theorem set_token_standard_one_error_classification_witness :
    (set_token_standard_one
        { pubkey_from_str := fun _ => Except.error "Invalid Base58 string",
          derive_metadata_pda := fun p => p + 1,
          derive_edition_pda := fun p => p + 2,
          get_account_with_commitment := fun _ => Except.ok Option.none,
          get_latest_blockhash := Except.ok 42,
          send_and_confirm_transaction := fun _ => Except.ok "sig" }
        { keypair := 5, mint_account := "not-a-mint" }).1 =
      Except.error (ActionError.actionFailed "not-a-mint" "Invalid Base58 string") :=
  (set_token_standard_one_error_classification
      { pubkey_from_str := fun _ => Except.error "Invalid Base58 string",
        derive_metadata_pda := fun p => p + 1,
        derive_edition_pda := fun p => p + 2,
        get_account_with_commitment := fun _ => Except.ok Option.none,
        get_latest_blockhash := Except.ok 42,
        send_and_confirm_transaction := fun _ => Except.ok "sig" }
      { keypair := 5, mint_account := "not-a-mint" }).1 "Invalid Base58 string" rfl

/-! ## Retry Policy (spec §4.4; source not under src/) -/

/-- Modelled from the spec: the Retry Policy's parameters (§4.4) — base delay,
multiplicative backoff factor, maximum attempt count (`retries`, the `u8`
field of `SetTokenStandardAllArgs`).  The policy's source lives in the batch
action engine, which is not under src/. -/
structure RetryPolicy where
  base : Nat
  factor : Nat
  retries : Nat

/-- Modelled from the spec: the bounded retry loop of §4.4.  `attempt` is the
1-based number of the next attempt and `remaining` the number of attempts
still allowed.  On failure with more attempts allowed, sleep
`base * factor^(attempt-1)` and go again; once the attempt budget is
exhausted the last failure is surfaced.  Returns (final result, number of
attempts performed, inter-attempt delays slept, in order).  The operation
may behave differently on different attempt numbers (transient failures). -/
def retryGo (p : RetryPolicy) (op : Nat → Except String String) :
    Nat → Nat → Except String String × Nat × List Nat
  | _, 0 => (Except.error "", 0, [])
  | attempt, 1 => (op attempt, 1, [])
  | attempt, remaining + 2 =>
    match op attempt with
    | Except.ok r => (Except.ok r, 1, [])
    | Except.error _ =>
      let rest := retryGo p op (attempt + 1) (remaining + 1)
      (rest.1, rest.2.1 + 1, (p.base * p.factor ^ (attempt - 1)) :: rest.2.2)

/-- Modelled from the spec: run one logical operation under the Retry Policy,
starting at attempt 1 with the caller-configured maximum attempt count. -/
def retryRun (p : RetryPolicy) (op : Nat → Except String String) :
    Except String String × Nat × List Nat :=
  retryGo p op 1 p.retries

/-! ## Target List Loader (spec §4.1; source not under src/) -/

/-- Modelled from the spec: the fatal input error of §7 (`InvalidInput`). -/
inductive LoaderError where
  | invalidInput
deriving DecidableEq, Repr

/-- Modelled from the spec: the two kinds of file the Target List Loader can
read — an explicit mint list, and a cache file whose entries map a TargetId
to its last recorded Outcome.  `Option.none` means the path cannot be read as
the recognized format. -/
structure FileSys where
  mint_list_content : String → Option (List TargetId)
  cache_content : String → Option (List (TargetId × Outcome))

/-- Modelled from the spec: `parse_mint_list` (§4.1), whose source is not
under src/ (only its caller `set_token_standard_all` is).  Given either an
explicit mint list or a cache-file path, produce a deduplicated, non-empty
ordered sequence of TargetId; fail with `InvalidInput` if neither source is
supplied, if the supplied list parses to zero entries, or if the cache file
cannot be read as a recognized target list.  The cache branch uses only the
recorded identifiers, never the outcomes. -/
def parse_mint_list (fs : FileSys) (mint_list : Option String) (cache_file : Option String) :
    Except LoaderError (List TargetId) :=
  match mint_list with
  | Option.some path =>
    match fs.mint_list_content path with
    | Option.none => Except.error LoaderError.invalidInput
    | Option.some l =>
      if l = [] then Except.error LoaderError.invalidInput else Except.ok l.dedup
  | Option.none =>
    match cache_file with
    | Option.some path =>
      match fs.cache_content path with
      | Option.none => Except.error LoaderError.invalidInput
      | Option.some entries =>
        let l := entries.map Prod.fst
        if l = [] then Except.error LoaderError.invalidInput else Except.ok l.dedup
    | Option.none => Except.error LoaderError.invalidInput

/-! ## Batch Runner (spec §4.6; source not under src/) -/

/-- The in-memory ProgressCache mapping: TargetId to last recorded Outcome
(at most one entry per TargetId, last write wins). -/
def Cache := TargetId → Option Outcome

/-- `record(TargetId, Outcome)`: update the mapping, last write wins. -/
def Cache.record (c : Cache) (t : TargetId) (o : Outcome) : Cache :=
  fun u => if u = t then Option.some o else c u

/-- Modelled from the spec: the resumability rule of §4.2 — only a last
recorded `Success` makes a target skip-worthy. -/
def isSkip (c : Cache) (t : TargetId) : Bool :=
  match c t with
  | Option.some (Outcome.success _) => true
  | _ => false

/-- Does this outcome record a success? -/
def Outcome.isSuccess : Outcome → Bool
  | .success _ => true
  | .failure _ => false

/-- Modelled from the spec: one Pending target's terminal state — run the
Action under the Retry Policy and classify the settled result (§4.6 step 3).
`op t k` is the result of attempt number `k` of the action on target `t`. -/
def runTarget (p : RetryPolicy) (op : TargetId → Nat → Except String String)
    (t : TargetId) : Outcome :=
  match (retryRun p (op t)).1 with
  | Except.ok r => Outcome.success r
  | Except.error e => Outcome.failure e

/-- The BatchReport aggregate (§3): skipped / attempted targets and the
succeeded / failed outcomes with receipt or reason, in input order. -/
structure BatchReport where
  skipped : List TargetId
  attempted : List TargetId
  succeeded : List (TargetId × String)
  failed : List (TargetId × String)
deriving DecidableEq, Repr

/-- Modelled from the spec: the Batch Runner loop of §4.6 — partition against
the initial snapshot (`isSkip snapshot`), run each Pending target under the
Retry Policy, `record` its outcome into the cache, and accumulate the
BatchReport.  Skip decisions read the snapshot taken at start, while records
go to the evolving cache. -/
def runBatchGo (p : RetryPolicy) (op : TargetId → Nat → Except String String)
    (snapshot : Cache) : List TargetId → Cache → BatchReport × Cache
  | [], c => (⟨[], [], [], []⟩, c)
  | t :: ts, c =>
    if isSkip snapshot t then
      let r := runBatchGo p op snapshot ts c
      (⟨t :: r.1.skipped, r.1.attempted, r.1.succeeded, r.1.failed⟩, r.2)
    else
      match runTarget p op t with
      | Outcome.success s =>
        let r := runBatchGo p op snapshot ts (c.record t (Outcome.success s))
        (⟨r.1.skipped, t :: r.1.attempted, (t, s) :: r.1.succeeded, r.1.failed⟩, r.2)
      | Outcome.failure e =>
        let r := runBatchGo p op snapshot ts (c.record t (Outcome.failure e))
        (⟨r.1.skipped, t :: r.1.attempted, r.1.succeeded, (t, e) :: r.1.failed⟩, r.2)

/-- Modelled from the spec: a whole batch run (§4.6 steps 1-5): snapshot the
loaded cache, then process the target list. -/
def runBatch (p : RetryPolicy) (op : TargetId → Nat → Except String String)
    (cache : Cache) (targets : List TargetId) : BatchReport × Cache :=
  runBatchGo p op cache targets cache

/-! ## `set_token_standard_all` (src/update/token_standard.rs, lines 82-101) -/

/-- `BatchActionArgs` as constructed at lines 91-100; the client handle is
outside the model, the parsed keypair is its pubkey. -/
structure BatchActionArgs where
  keypair : Pubkey
  payer : Option Pubkey
  mint_list : List TargetId
  cache_file : Option String
  new_value : NewValue
  rate_limit : Nat
  retries : Nat
deriving Repr

/-- `SetTokenStandardAllArgs` (lines 14-21), minus the client handle. -/
structure SetTokenStandardAllArgs where
  keypair : Option String
  mint_list : Option String
  cache_file : Option String
  rate_limit : Nat
  retries : Nat

/-- Results of the ambient lookups `set_token_standard_all` performs: the
file system read by the loader, and `parse_solana_config` +
`parse_keypair` collapsed into the pubkey of the keypair they resolve. -/
structure AllEnv where
  fs : FileSys
  parse_keypair : Option String → Pubkey

/-- Lines 82-101 of `src/update/token_standard.rs`: resolve the keypair,
load the target list via `parse_mint_list` (propagating its failure through
`?`), then build the `BatchActionArgs` batch context with `payer = None`
(line 89 comment: payer unsupported for this action) and
`new_value = NewValue::None`. -/
def set_token_standard_all (env : AllEnv) (args : SetTokenStandardAllArgs) :
    Except LoaderError BatchActionArgs :=
  let keypair := env.parse_keypair args.keypair
  match parse_mint_list env.fs args.mint_list args.cache_file with
  | Except.error e => Except.error e
  | Except.ok mint_list =>
    let payer := Option.none
    Except.ok
      { keypair := keypair, payer := payer, mint_list := mint_list,
        cache_file := args.cache_file, new_value := NewValue.none,
        rate_limit := args.rate_limit, retries := args.retries }

/-! ## Theorems for claim C1 -/

/-- On an always-failing operation, `retryGo` performs every allowed attempt,
sleeps the backoff schedule `base * factor^(attempt-1)` between consecutive
attempts, and ends with the last attempt's result. -/
theorem retryGo_always_fails (p : RetryPolicy) (op : Nat → Except String String)
    (hfail : ∀ k, ∃ e, op k = Except.error e) :
    ∀ n, 1 ≤ n → ∀ attempt, 1 ≤ attempt →
      (retryGo p op attempt n).2.1 = n ∧
      (retryGo p op attempt n).2.2 =
        (List.range (n - 1)).map (fun i => p.base * p.factor ^ (attempt - 1 + i)) ∧
      (retryGo p op attempt n).1 = op (attempt + n - 1) := by
  intro n
  induction n with
  | zero => intro h; exact absurd h (by omega)
  | succ m ih =>
    intro _ attempt hatt
    cases m with
    | zero =>
      refine ⟨rfl, by simp [retryGo], ?_⟩
      show op attempt = op (attempt + 1 - 1)
      congr 1
    | succ k =>
      obtain ⟨e, he⟩ := hfail attempt
      have ihk := ih (by omega) (attempt + 1) (by omega)
      refine ⟨?_, ?_, ?_⟩
      · show (retryGo p op attempt (k + 2)).2.1 = k + 2
        simp only [retryGo, he]
        rw [ihk.1]
      · show (retryGo p op attempt (k + 2)).2.2 = _
        simp only [retryGo, he]
        rw [ihk.2.1]
        have hrange : List.range (k + 2 - 1) = 0 :: (List.range k).map Nat.succ := by
          show List.range (k + 1) = _
          exact List.range_succ_eq_map k
        rw [hrange, List.map_cons, List.map_map]
        refine List.cons_eq_cons.mpr ⟨by simp, ?_⟩
        apply List.map_congr_left
        intro i _
        have hidx : attempt + 1 - 1 + i = attempt - 1 + Nat.succ i := by omega
        show p.base * p.factor ^ (attempt + 1 - 1 + i) =
          p.base * p.factor ^ (attempt - 1 + Nat.succ i)
        rw [hidx]
      · show (retryGo p op attempt (k + 2)).1 = op (attempt + (k + 2) - 1)
        simp only [retryGo, he]
        rw [ihk.2.2]
        congr 1
        omega

/-- C1: under the Retry Policy, a target whose operation always fails is
attempted exactly `retries` times (`retries ≥ 1` being the caller-configured
maximum attempt count); the sleeps between consecutive attempts are
`base * factor^(attempt-1)`, hence non-decreasing for a backoff factor ≥ 1;
and the last attempt's failure is surfaced as the final result. -/
theorem retry_bound (p : RetryPolicy) (op : Nat → Except String String)
    (hfail : ∀ k, ∃ e, op k = Except.error e) (hr : 1 ≤ p.retries) :
    (retryRun p op).2.1 = p.retries ∧
    (retryRun p op).2.2 =
      (List.range (p.retries - 1)).map (fun i => p.base * p.factor ^ i) ∧
    (1 ≤ p.factor → (retryRun p op).2.2.Chain' (· ≤ ·)) ∧
    (∃ e, op p.retries = Except.error e ∧ (retryRun p op).1 = Except.error e) := by
  have h := retryGo_always_fails p op hfail p.retries hr 1 le_rfl
  have hdelays : (retryRun p op).2.2 =
      (List.range (p.retries - 1)).map (fun i => p.base * p.factor ^ i) := by
    rw [retryRun, h.2.1]
    apply List.map_congr_left
    intro i _
    simp
  refine ⟨h.1, hdelays, ?_, ?_⟩
  · intro hfac
    rw [hdelays, List.chain'_map]
    cases hn : p.retries - 1 with
    | zero => simp
    | succ n =>
      rw [List.chain'_range_succ]
      intro m _
      exact Nat.mul_le_mul_left _ (Nat.pow_le_pow_right hfac (by omega))
  · obtain ⟨e, he⟩ := hfail p.retries
    refine ⟨e, he, ?_⟩
    have hidx : 1 + p.retries - 1 = p.retries := by omega
    rw [retryRun, h.2.2, hidx, he]

/-- Witness for C1: the source's parameters (base 250, factor 2) with three
attempts on an always-failing operation: three attempts, delays 250 then 500,
final result the failure. -/
theorem retry_bound_witness :
    (retryRun ⟨250, 2, 3⟩ (fun _ => Except.error "boom")).2.1 = 3 ∧
    (retryRun ⟨250, 2, 3⟩ (fun _ => Except.error "boom")).2.2 = [250, 500] ∧
    (retryRun ⟨250, 2, 3⟩ (fun _ => Except.error "boom")).2.2.Chain' (· ≤ ·) ∧
    (retryRun ⟨250, 2, 3⟩ (fun _ => Except.error "boom")).1 = Except.error "boom" := by
  have h := retry_bound ⟨250, 2, 3⟩ (fun _ => Except.error "boom")
    (fun _ => ⟨"boom", rfl⟩) (by decide)
  obtain ⟨e, he, hres⟩ := h.2.2.2
  obtain rfl : e = "boom" := by injection he with h'; exact h'.symm
  refine ⟨h.1, ?_, h.2.2.1 (by decide), hres⟩
  rw [h.2.1]
  decide

/-! ## Theorems for claim C4 -/

/-- C4: the Target List Loader fails with `InvalidInput` when neither a mint
list nor a cache file is supplied, when the supplied list parses to zero
entries, or when the cache file cannot be read as a recognized target list;
any successful result is a deduplicated, non-empty, order-preserving sequence
of the raw identifiers; and the cache branch keeps every recorded TargetId —
including those whose outcome is a Success — so no skip decision is taken by
the loader. -/
theorem parse_mint_list_spec (fs : FileSys) (mint_list cache_file : Option String) :
    (mint_list = Option.none → cache_file = Option.none →
      parse_mint_list fs mint_list cache_file = Except.error LoaderError.invalidInput) ∧
    (∀ path, mint_list = Option.some path → fs.mint_list_content path = Option.some [] →
      parse_mint_list fs mint_list cache_file = Except.error LoaderError.invalidInput) ∧
    (∀ path, mint_list = Option.none → cache_file = Option.some path →
      fs.cache_content path = Option.none →
      parse_mint_list fs mint_list cache_file = Except.error LoaderError.invalidInput) ∧
    (∀ l, parse_mint_list fs mint_list cache_file = Except.ok l → l.Nodup ∧ l ≠ []) ∧
    (∀ path l, mint_list = Option.some path → fs.mint_list_content path = Option.some l →
      l ≠ [] →
      parse_mint_list fs mint_list cache_file = Except.ok l.dedup ∧ l.dedup.Sublist l) ∧
    (∀ path entries t o, mint_list = Option.none → cache_file = Option.some path →
      fs.cache_content path = Option.some entries → (t, o) ∈ entries →
      parse_mint_list fs mint_list cache_file = Except.ok (entries.map Prod.fst).dedup ∧
        t ∈ (entries.map Prod.fst).dedup) := by
  refine ⟨?_, ?_, ?_, ?_, ?_, ?_⟩
  · rintro rfl rfl
    rfl
  · rintro path rfl h
    simp [parse_mint_list, h]
  · rintro path rfl rfl h
    simp [parse_mint_list, h]
  · intro l hl
    rcases mint_list with _ | path
    · rcases cache_file with _ | path
      · cases hl
      · rcases hc : fs.cache_content path with _ | entries
        · rw [parse_mint_list] at hl
          simp [hc] at hl
        · rw [parse_mint_list] at hl
          simp only [hc] at hl
          by_cases hz : entries.map Prod.fst = []
          · simp [hz] at hl
          · simp only [hz, if_neg, if_false] at hl
            obtain rfl : (entries.map Prod.fst).dedup = l := by
              simpa using hl
            exact ⟨List.nodup_dedup _, by simpa [List.dedup_eq_nil] using hz⟩
    · rcases hm : fs.mint_list_content path with _ | raw
      · rw [parse_mint_list] at hl
        simp [hm] at hl
      · rw [parse_mint_list] at hl
        simp only [hm] at hl
        by_cases hz : raw = []
        · simp [hz] at hl
        · simp only [hz, if_neg, if_false] at hl
          obtain rfl : raw.dedup = l := by simpa using hl
          exact ⟨List.nodup_dedup _, by simpa [List.dedup_eq_nil] using hz⟩
  · rintro path l rfl hm hne
    refine ⟨?_, List.dedup_sublist l⟩
    simp [parse_mint_list, hm, hne]
  · rintro path entries t o rfl rfl hc hmem
    have hne : entries.map Prod.fst ≠ [] := by
      intro h
      rw [List.map_eq_nil_iff] at h
      subst h
      cases hmem
    refine ⟨by simp [parse_mint_list, hc, hne], ?_⟩
    rw [List.mem_dedup]
    exact List.mem_map.mpr ⟨(t, o), hmem, rfl⟩

/-- Witness for C4: with neither source supplied the loader rejects, and a
concrete three-entry cache (one Success among them) yields all recorded
identifiers. -/
theorem parse_mint_list_spec_witness :
    parse_mint_list
        { mint_list_content := fun _ => Option.none,
          cache_content := fun _ =>
            Option.some [("A", Outcome.success "sigA"), ("B", Outcome.failure "err"),
              ("A", Outcome.failure "old")] }
        Option.none Option.none = Except.error LoaderError.invalidInput ∧
    "A" ∈ ([("A", Outcome.success "sigA"), ("B", Outcome.failure "err"),
        ("A", Outcome.failure "old")].map
          (Prod.fst (α := TargetId) (β := Outcome))).dedup :=
  ⟨(parse_mint_list_spec
      { mint_list_content := fun _ => Option.none,
        cache_content := fun _ =>
          Option.some [("A", Outcome.success "sigA"), ("B", Outcome.failure "err"),
            ("A", Outcome.failure "old")] }
      Option.none Option.none).1 rfl rfl,
   ((parse_mint_list_spec
      { mint_list_content := fun _ => Option.none,
        cache_content := fun _ =>
          Option.some [("A", Outcome.success "sigA"), ("B", Outcome.failure "err"),
            ("A", Outcome.failure "old")] }
      Option.none (Option.some "cache.json")).2.2.2.2.2 "cache.json"
      [("A", Outcome.success "sigA"), ("B", Outcome.failure "err"),
        ("A", Outcome.failure "old")] "A" (Outcome.success "sigA")
      rfl rfl rfl (by simp)).2⟩

/-! ## Theorems for claim C10 -/

/-- C10: whatever the caller passes, `set_token_standard_all` constructs the
batch context with `payer = None` and `new_value = NewValue::None`; the
optional secondary credential and the optional new-value payload are never
populated for this action. -/
theorem set_token_standard_all_fixed_fields (env : AllEnv) (args : SetTokenStandardAllArgs) :
    ∀ b, set_token_standard_all env args = Except.ok b →
      b.payer = Option.none ∧ b.new_value = NewValue.none := by
  intro b hb
  rw [set_token_standard_all] at hb
  rcases h : parse_mint_list env.fs args.mint_list args.cache_file with e | ml
  · rw [h] at hb
    cases hb
  · rw [h] at hb
    obtain rfl : _ = b := by injection hb
    exact ⟨rfl, rfl⟩

/-- Witness for C10: a concrete run whose loader succeeds produces a batch
context with no payer and no new value. -/
theorem set_token_standard_all_fixed_fields_witness :
    ((set_token_standard_all
        { fs := { mint_list_content := fun _ => Option.some ["A", "B"],
                  cache_content := fun _ => Option.none },
          parse_keypair := fun _ => 9 }
        { keypair := Option.none, mint_list := Option.some "mints.json",
          cache_file := Option.none, rate_limit := 10, retries := 3 }) =
      Except.ok
        { keypair := 9, payer := Option.none, mint_list := ["A", "B"],
          cache_file := Option.none, new_value := NewValue.none,
          rate_limit := 10, retries := 3 }) ∧
    (Option.none : Option Pubkey) = Option.none ∧ NewValue.none = NewValue.none :=
  ⟨by rfl,
   set_token_standard_all_fixed_fields
      { fs := { mint_list_content := fun _ => Option.some ["A", "B"],
                cache_content := fun _ => Option.none },
        parse_keypair := fun _ => 9 }
      { keypair := Option.none, mint_list := Option.some "mints.json",
        cache_file := Option.none, rate_limit := 10, retries := 3 }
      { keypair := 9, payer := Option.none, mint_list := ["A", "B"],
        cache_file := Option.none, new_value := NewValue.none,
        rate_limit := 10, retries := 3 }
      (by rfl)⟩

/-! ## Batch Runner characterization lemmas (shared helpers) -/

/-- Unfolding `runBatchGo` on a skip-worthy head target. -/
theorem runBatchGo_cons_skip (p : RetryPolicy) (op : TargetId → Nat → Except String String)
    (snapshot : Cache) (t : TargetId) (ts : List TargetId) (c : Cache)
    (h : isSkip snapshot t = true) :
    runBatchGo p op snapshot (t :: ts) c =
      (⟨t :: (runBatchGo p op snapshot ts c).1.skipped,
        (runBatchGo p op snapshot ts c).1.attempted,
        (runBatchGo p op snapshot ts c).1.succeeded,
        (runBatchGo p op snapshot ts c).1.failed⟩,
       (runBatchGo p op snapshot ts c).2) := by
  simp [runBatchGo, h]

/-- Unfolding `runBatchGo` on a pending head target whose retried operation
succeeds. -/
theorem runBatchGo_cons_success (p : RetryPolicy) (op : TargetId → Nat → Except String String)
    (snapshot : Cache) (t : TargetId) (ts : List TargetId) (c : Cache) (s : String)
    (h : isSkip snapshot t = false) (hs : runTarget p op t = Outcome.success s) :
    runBatchGo p op snapshot (t :: ts) c =
      (⟨(runBatchGo p op snapshot ts (c.record t (Outcome.success s))).1.skipped,
        t :: (runBatchGo p op snapshot ts (c.record t (Outcome.success s))).1.attempted,
        (t, s) :: (runBatchGo p op snapshot ts (c.record t (Outcome.success s))).1.succeeded,
        (runBatchGo p op snapshot ts (c.record t (Outcome.success s))).1.failed⟩,
       (runBatchGo p op snapshot ts (c.record t (Outcome.success s))).2) := by
  simp [runBatchGo, h, hs]

/-- Unfolding `runBatchGo` on a pending head target whose retried operation
fails. -/
theorem runBatchGo_cons_failure (p : RetryPolicy) (op : TargetId → Nat → Except String String)
    (snapshot : Cache) (t : TargetId) (ts : List TargetId) (c : Cache) (e : String)
    (h : isSkip snapshot t = false) (hs : runTarget p op t = Outcome.failure e) :
    runBatchGo p op snapshot (t :: ts) c =
      (⟨(runBatchGo p op snapshot ts (c.record t (Outcome.failure e))).1.skipped,
        t :: (runBatchGo p op snapshot ts (c.record t (Outcome.failure e))).1.attempted,
        (runBatchGo p op snapshot ts (c.record t (Outcome.failure e))).1.succeeded,
        (t, e) :: (runBatchGo p op snapshot ts (c.record t (Outcome.failure e))).1.failed⟩,
       (runBatchGo p op snapshot ts (c.record t (Outcome.failure e))).2) := by
  simp [runBatchGo, h, hs]

/-- Membership in each BatchReport component, characterized per target:
skip/attempt is decided by the snapshot, success/failure by the target's own
retried operation. -/
theorem runBatchGo_report (p : RetryPolicy) (op : TargetId → Nat → Except String String)
    (snapshot : Cache) (ts : List TargetId) (c : Cache) :
    (∀ u, u ∈ (runBatchGo p op snapshot ts c).1.skipped ↔
        u ∈ ts ∧ isSkip snapshot u = true) ∧
    (∀ u, u ∈ (runBatchGo p op snapshot ts c).1.attempted ↔
        u ∈ ts ∧ isSkip snapshot u = false) ∧
    (∀ u s, (u, s) ∈ (runBatchGo p op snapshot ts c).1.succeeded ↔
        u ∈ ts ∧ isSkip snapshot u = false ∧ runTarget p op u = Outcome.success s) ∧
    (∀ u e, (u, e) ∈ (runBatchGo p op snapshot ts c).1.failed ↔
        u ∈ ts ∧ isSkip snapshot u = false ∧ runTarget p op u = Outcome.failure e) := by
  induction ts generalizing c with
  | nil => simp [runBatchGo]
  | cons t ts ih =>
    cases hskip : isSkip snapshot t with
    | true =>
      obtain ⟨ih1, ih2, ih3, ih4⟩ := ih c
      rw [runBatchGo_cons_skip p op snapshot t ts c hskip]
      refine ⟨?_, ?_, ?_, ?_⟩
      · intro u
        simp only [List.mem_cons, ih1]
        constructor
        · rintro (rfl | ⟨hu, hs⟩)
          · exact ⟨Or.inl rfl, hskip⟩
          · exact ⟨Or.inr hu, hs⟩
        · rintro ⟨rfl | hu, hs⟩
          · exact Or.inl rfl
          · exact Or.inr ⟨hu, hs⟩
      · intro u
        simp only [List.mem_cons, ih2]
        constructor
        · rintro ⟨hu, hs⟩
          exact ⟨Or.inr hu, hs⟩
        · rintro ⟨rfl | hu, hs⟩
          · rw [hskip] at hs
            cases hs
          · exact ⟨hu, hs⟩
      · intro u s
        simp only [List.mem_cons, ih3]
        constructor
        · rintro ⟨hu, hs, ho⟩
          exact ⟨Or.inr hu, hs, ho⟩
        · rintro ⟨rfl | hu, hs, ho⟩
          · rw [hskip] at hs
            cases hs
          · exact ⟨hu, hs, ho⟩
      · intro u e
        simp only [List.mem_cons, ih4]
        constructor
        · rintro ⟨hu, hs, ho⟩
          exact ⟨Or.inr hu, hs, ho⟩
        · rintro ⟨rfl | hu, hs, ho⟩
          · rw [hskip] at hs
            cases hs
          · exact ⟨hu, hs, ho⟩
    | false =>
      cases hrt : runTarget p op t with
      | success s0 =>
        obtain ⟨ih1, ih2, ih3, ih4⟩ := ih (c.record t (Outcome.success s0))
        rw [runBatchGo_cons_success p op snapshot t ts c s0 hskip hrt]
        refine ⟨?_, ?_, ?_, ?_⟩
        · intro u
          simp only [List.mem_cons, ih1]
          constructor
          · rintro ⟨hu, hs⟩
            exact ⟨Or.inr hu, hs⟩
          · rintro ⟨rfl | hu, hs⟩
            · rw [hskip] at hs
              cases hs
            · exact ⟨hu, hs⟩
        · intro u
          simp only [List.mem_cons, ih2]
          constructor
          · rintro (rfl | ⟨hu, hs⟩)
            · exact ⟨Or.inl rfl, hskip⟩
            · exact ⟨Or.inr hu, hs⟩
          · rintro ⟨rfl | hu, hs⟩
            · exact Or.inl rfl
            · exact Or.inr ⟨hu, hs⟩
        · intro u s
          simp only [List.mem_cons, ih3]
          constructor
          · rintro (huv | ⟨hu, hs, ho⟩)
            · obtain ⟨rfl, rfl⟩ := Prod.mk.injEq .. |>.mp huv
              exact ⟨Or.inl rfl, hskip, hrt⟩
            · exact ⟨Or.inr hu, hs, ho⟩
          · rintro ⟨rfl | hu, hs, ho⟩
            · rw [hrt] at ho
              obtain rfl : s0 = s := by injection ho
              exact Or.inl rfl
            · exact Or.inr ⟨hu, hs, ho⟩
        · intro u e
          simp only [List.mem_cons, ih4]
          constructor
          · rintro ⟨hu, hs, ho⟩
            exact ⟨Or.inr hu, hs, ho⟩
          · rintro ⟨rfl | hu, hs, ho⟩
            · rw [hrt] at ho
              cases ho
            · exact ⟨hu, hs, ho⟩
      | failure e0 =>
        obtain ⟨ih1, ih2, ih3, ih4⟩ := ih (c.record t (Outcome.failure e0))
        rw [runBatchGo_cons_failure p op snapshot t ts c e0 hskip hrt]
        refine ⟨?_, ?_, ?_, ?_⟩
        · intro u
          simp only [List.mem_cons, ih1]
          constructor
          · rintro ⟨hu, hs⟩
            exact ⟨Or.inr hu, hs⟩
          · rintro ⟨rfl | hu, hs⟩
            · rw [hskip] at hs
              cases hs
            · exact ⟨hu, hs⟩
        · intro u
          simp only [List.mem_cons, ih2]
          constructor
          · rintro (rfl | ⟨hu, hs⟩)
            · exact ⟨Or.inl rfl, hskip⟩
            · exact ⟨Or.inr hu, hs⟩
          · rintro ⟨rfl | hu, hs⟩
            · exact Or.inl rfl
            · exact Or.inr ⟨hu, hs⟩
        · intro u s
          simp only [List.mem_cons, ih3]
          constructor
          · rintro ⟨hu, hs, ho⟩
            exact ⟨Or.inr hu, hs, ho⟩
          · rintro ⟨rfl | hu, hs, ho⟩
            · rw [hrt] at ho
              cases ho
            · exact ⟨hu, hs, ho⟩
        · intro u e
          simp only [List.mem_cons, ih4]
          constructor
          · rintro (huv | ⟨hu, hs, ho⟩)
            · obtain ⟨rfl, rfl⟩ := Prod.mk.injEq .. |>.mp huv
              exact ⟨Or.inl rfl, hskip, hrt⟩
            · exact ⟨Or.inr hu, hs, ho⟩
          · rintro ⟨rfl | hu, hs, ho⟩
            · rw [hrt] at ho
              obtain rfl : e0 = e := by injection ho
              exact Or.inl rfl
            · exact Or.inr ⟨hu, hs, ho⟩

/-- The final cache after a run: every attempted target holds its settled
outcome (last write wins), every other entry is untouched. -/
theorem runBatchGo_cache (p : RetryPolicy) (op : TargetId → Nat → Except String String)
    (snapshot : Cache) (ts : List TargetId) (c : Cache) (u : TargetId) :
    (runBatchGo p op snapshot ts c).2 u =
      if u ∈ ts ∧ isSkip snapshot u = false then Option.some (runTarget p op u) else c u := by
  induction ts generalizing c with
  | nil => simp [runBatchGo]
  | cons t ts ih =>
    cases hskip : isSkip snapshot t with
    | true =>
      rw [runBatchGo_cons_skip p op snapshot t ts c hskip, ih c]
      by_cases hu : u ∈ ts ∧ isSkip snapshot u = false
      · rw [if_pos hu, if_pos ⟨List.mem_cons_of_mem _ hu.1, hu.2⟩]
      · rw [if_neg hu, if_neg]
        rintro ⟨hmem, hs⟩
        rcases List.mem_cons.mp hmem with rfl | hmem2
        · rw [hskip] at hs
          cases hs
        · exact hu ⟨hmem2, hs⟩
    | false =>
      cases hrt : runTarget p op t with
      | success s0 =>
        rw [runBatchGo_cons_success p op snapshot t ts c s0 hskip hrt,
          ih (c.record t (Outcome.success s0))]
        by_cases hu : u ∈ ts ∧ isSkip snapshot u = false
        · rw [if_pos hu, if_pos ⟨List.mem_cons_of_mem _ hu.1, hu.2⟩]
        · rw [if_neg hu]
          by_cases hut : u = t
          · subst hut
            rw [if_pos ⟨List.mem_cons_self u ts, hskip⟩, Cache.record, if_pos rfl, hrt]
          · rw [Cache.record, if_neg hut, if_neg]
            rintro ⟨hmem, hs⟩
            rcases List.mem_cons.mp hmem with rfl | hmem2
            · exact hut rfl
            · exact hu ⟨hmem2, hs⟩
      | failure e0 =>
        rw [runBatchGo_cons_failure p op snapshot t ts c e0 hskip hrt,
          ih (c.record t (Outcome.failure e0))]
        by_cases hu : u ∈ ts ∧ isSkip snapshot u = false
        · rw [if_pos hu, if_pos ⟨List.mem_cons_of_mem _ hu.1, hu.2⟩]
        · rw [if_neg hu]
          by_cases hut : u = t
          · subst hut
            rw [if_pos ⟨List.mem_cons_self u ts, hskip⟩, Cache.record, if_pos rfl, hrt]
          · rw [Cache.record, if_neg hut, if_neg]
            rintro ⟨hmem, hs⟩
            rcases List.mem_cons.mp hmem with rfl | hmem2
            · exact hut rfl
            · exact hu ⟨hmem2, hs⟩

/-- The sizes of the BatchReport components are counts over the input list,
determined only by the snapshot's skip partition and each target's own
settled outcome. -/
theorem runBatchGo_lengths (p : RetryPolicy) (op : TargetId → Nat → Except String String)
    (snapshot : Cache) (ts : List TargetId) (c : Cache) :
    (runBatchGo p op snapshot ts c).1.skipped.length =
      (ts.filter fun u => isSkip snapshot u).length ∧
    (runBatchGo p op snapshot ts c).1.attempted.length =
      (ts.filter fun u => !isSkip snapshot u).length ∧
    (runBatchGo p op snapshot ts c).1.succeeded.length =
      (ts.filter fun u => !isSkip snapshot u && (runTarget p op u).isSuccess).length ∧
    (runBatchGo p op snapshot ts c).1.failed.length =
      (ts.filter fun u => !isSkip snapshot u && !(runTarget p op u).isSuccess).length := by
  induction ts generalizing c with
  | nil => simp [runBatchGo]
  | cons t ts ih =>
    cases hskip : isSkip snapshot t with
    | true =>
      obtain ⟨ih1, ih2, ih3, ih4⟩ := ih c
      rw [runBatchGo_cons_skip p op snapshot t ts c hskip]
      refine ⟨?_, ?_, ?_, ?_⟩ <;>
        simp [List.filter_cons, hskip, ih1, ih2, ih3, ih4]
    | false =>
      cases hrt : runTarget p op t with
      | success s0 =>
        obtain ⟨ih1, ih2, ih3, ih4⟩ := ih (c.record t (Outcome.success s0))
        rw [runBatchGo_cons_success p op snapshot t ts c s0 hskip hrt]
        refine ⟨?_, ?_, ?_, ?_⟩ <;>
          simp [List.filter_cons, hskip, hrt, Outcome.isSuccess, ih1, ih2, ih3, ih4]
      | failure e0 =>
        obtain ⟨ih1, ih2, ih3, ih4⟩ := ih (c.record t (Outcome.failure e0))
        rw [runBatchGo_cons_failure p op snapshot t ts c e0 hskip hrt]
        refine ⟨?_, ?_, ?_, ?_⟩ <;>
          simp [List.filter_cons, hskip, hrt, Outcome.isSuccess, ih1, ih2, ih3, ih4]

/-! ## Theorems for claim C5 -/

/-- C5: a TargetId whose last recorded Outcome is `Success` is skipped (and
not attempted) on a run against that cache, while a TargetId with a `Failure`
entry or no entry is attempted; consequently, every target that succeeded in
one run is Skipped — and not newly attempted — when the batch is run again
against the resulting cache. -/
theorem batch_resumability (p : RetryPolicy) (op : TargetId → Nat → Except String String)
    (cache : Cache) (targets : List TargetId) (t : TargetId) :
    (t ∈ targets → ∀ r, cache t = Option.some (Outcome.success r) →
      t ∈ (runBatch p op cache targets).1.skipped ∧
      t ∉ (runBatch p op cache targets).1.attempted) ∧
    (t ∈ targets → cache t = Option.none →
      t ∈ (runBatch p op cache targets).1.attempted) ∧
    (t ∈ targets → ∀ e, cache t = Option.some (Outcome.failure e) →
      t ∈ (runBatch p op cache targets).1.attempted) ∧
    (∀ s, (t, s) ∈ (runBatch p op cache targets).1.succeeded →
      t ∈ (runBatch p op ((runBatch p op cache targets).2) targets).1.skipped ∧
      t ∉ (runBatch p op ((runBatch p op cache targets).2) targets).1.attempted) := by
  obtain ⟨h1, h2, h3, h4⟩ := runBatchGo_report p op cache targets cache
  refine ⟨?_, ?_, ?_, ?_⟩
  · intro ht r hc
    have hskip : isSkip cache t = true := by simp [isSkip, hc]
    refine ⟨(h1 t).mpr ⟨ht, hskip⟩, ?_⟩
    intro hmem
    have hf := ((h2 t).mp hmem).2
    rw [hskip] at hf
    cases hf
  · intro ht hc
    have hskip : isSkip cache t = false := by simp [isSkip, hc]
    exact (h2 t).mpr ⟨ht, hskip⟩
  · intro ht e hc
    have hskip : isSkip cache t = false := by simp [isSkip, hc]
    exact (h2 t).mpr ⟨ht, hskip⟩
  · intro s hmem
    obtain ⟨ht, hskip, hrt⟩ := (h3 t s).mp hmem
    have hc1 : (runBatch p op cache targets).2 t = Option.some (Outcome.success s) := by
      rw [runBatch, runBatchGo_cache, if_pos ⟨ht, hskip⟩, hrt]
    have hskip2 : isSkip ((runBatch p op cache targets).2) t = true := by
      simp [isSkip, hc1]
    obtain ⟨g1, g2, g3, g4⟩ :=
      runBatchGo_report p op ((runBatch p op cache targets).2) targets
        ((runBatch p op cache targets).2)
    refine ⟨(g1 t).mpr ⟨ht, hskip2⟩, ?_⟩
    intro hmem2
    have hf := ((g2 t).mp hmem2).2
    rw [hskip2] at hf
    cases hf

/-- Witness for C5: a cache with a Success for "A" and a Failure for "B" —
"A" is skipped and not attempted, "B" and the absent "C" are attempted; and a
target that succeeded in the first run is skipped in the second. -/
theorem batch_resumability_witness :
    ("A" ∈ (runBatch ⟨1, 2, 1⟩ (fun _ _ => Except.ok "done")
        (fun u => if u = "A" then Option.some (Outcome.success "sigA")
          else if u = "B" then Option.some (Outcome.failure "bad") else Option.none)
        ["A", "B", "C"]).1.skipped ∧
      "A" ∉ (runBatch ⟨1, 2, 1⟩ (fun _ _ => Except.ok "done")
        (fun u => if u = "A" then Option.some (Outcome.success "sigA")
          else if u = "B" then Option.some (Outcome.failure "bad") else Option.none)
        ["A", "B", "C"]).1.attempted) ∧
    "B" ∈ (runBatch ⟨1, 2, 1⟩ (fun _ _ => Except.ok "done")
        (fun u => if u = "A" then Option.some (Outcome.success "sigA")
          else if u = "B" then Option.some (Outcome.failure "bad") else Option.none)
        ["A", "B", "C"]).1.attempted ∧
    "C" ∈ (runBatch ⟨1, 2, 1⟩ (fun _ _ => Except.ok "done")
        (fun u => if u = "A" then Option.some (Outcome.success "sigA")
          else if u = "B" then Option.some (Outcome.failure "bad") else Option.none)
        ["A", "B", "C"]).1.attempted ∧
    ("C" ∈ (runBatch ⟨1, 2, 1⟩ (fun _ _ => Except.ok "done")
        ((runBatch ⟨1, 2, 1⟩ (fun _ _ => Except.ok "done")
          (fun u => if u = "A" then Option.some (Outcome.success "sigA")
            else if u = "B" then Option.some (Outcome.failure "bad") else Option.none)
          ["A", "B", "C"]).2)
        ["A", "B", "C"]).1.skipped ∧
      "C" ∉ (runBatch ⟨1, 2, 1⟩ (fun _ _ => Except.ok "done")
        ((runBatch ⟨1, 2, 1⟩ (fun _ _ => Except.ok "done")
          (fun u => if u = "A" then Option.some (Outcome.success "sigA")
            else if u = "B" then Option.some (Outcome.failure "bad") else Option.none)
          ["A", "B", "C"]).2)
        ["A", "B", "C"]).1.attempted) := by
  have h := batch_resumability ⟨1, 2, 1⟩ (fun _ _ => Except.ok "done")
    (fun u => if u = "A" then Option.some (Outcome.success "sigA")
      else if u = "B" then Option.some (Outcome.failure "bad") else Option.none)
    ["A", "B", "C"]
  refine ⟨(h "A").1 (by decide) "sigA" (by decide), ?_, ?_, ?_⟩
  · exact (h "B").2.2.1 (by decide) "bad" (by decide)
  · exact (h "C").2.1 (by decide) (by decide)
  · exact (h "C").2.2.2 "done" (by decide)

/-! ## Theorems for claim C6 -/

/-- C6: an individual target's failure never aborts the run — every target in
the input list ends in a terminal state (Skipped, Succeeded or Failed, the
run therefore completing even when some targets failed), and the report's
failed list holds exactly the attempted targets whose settled outcome is a
failure, each with its reason. -/
theorem batch_completes (p : RetryPolicy) (op : TargetId → Nat → Except String String)
    (cache : Cache) (targets : List TargetId) :
    (∀ t, t ∈ targets →
      t ∈ (runBatch p op cache targets).1.skipped ∨
      (∃ s, (t, s) ∈ (runBatch p op cache targets).1.succeeded) ∨
      (∃ e, (t, e) ∈ (runBatch p op cache targets).1.failed)) ∧
    (∀ t e, (t, e) ∈ (runBatch p op cache targets).1.failed ↔
      t ∈ targets ∧ isSkip cache t = false ∧ runTarget p op t = Outcome.failure e) := by
  obtain ⟨h1, h2, h3, h4⟩ := runBatchGo_report p op cache targets cache
  refine ⟨?_, fun t e => h4 t e⟩
  intro t ht
  cases hskip : isSkip cache t with
  | true => exact Or.inl ((h1 t).mpr ⟨ht, hskip⟩)
  | false =>
    cases hrt : runTarget p op t with
    | success s => exact Or.inr (Or.inl ⟨s, (h3 t s).mpr ⟨ht, hskip, hrt⟩⟩)
    | failure e => exact Or.inr (Or.inr ⟨e, (h4 t e).mpr ⟨ht, hskip, hrt⟩⟩)

/-- Witness for C6: with "A" always failing and "B" succeeding, the completed
run's failed list contains exactly ("A", "boom"). -/
theorem batch_completes_witness :
    ("A", "boom") ∈ (runBatch ⟨1, 2, 2⟩
        (fun u _ => if u = "A" then Except.error "boom" else Except.ok "done")
        (fun _ => Option.none) ["A", "B"]).1.failed ∧
    ("B", "boom") ∉ (runBatch ⟨1, 2, 2⟩
        (fun u _ => if u = "A" then Except.error "boom" else Except.ok "done")
        (fun _ => Option.none) ["A", "B"]).1.failed := by
  have h := batch_completes ⟨1, 2, 2⟩
    (fun u _ => if u = "A" then Except.error "boom" else Except.ok "done")
    (fun _ => Option.none) ["A", "B"]
  constructor
  · exact (h.2 "A" "boom").mpr ⟨by decide, by decide, by decide⟩
  · intro hmem
    have hb := ((h.2 "B" "boom").mp hmem).2.2
    revert hb
    decide

/-! ## Theorems for claim C7 -/

/-- C7: isolation — a target's recorded cache entry and its membership in the
succeeded / failed report lists depend only on that target's own operation
(so another target's failure cannot change them or consume its retry budget),
and the succeeded / failed tallies are invariant under any reordering of the
target list. -/
theorem batch_isolation (p : RetryPolicy) (cache : Cache) (targets : List TargetId)
    (op op2 : TargetId → Nat → Except String String) (t : TargetId)
    (hsame : op t = op2 t) :
    (runBatch p op cache targets).2 t = (runBatch p op2 cache targets).2 t ∧
    (∀ s, (t, s) ∈ (runBatch p op cache targets).1.succeeded ↔
      (t, s) ∈ (runBatch p op2 cache targets).1.succeeded) ∧
    (∀ e, (t, e) ∈ (runBatch p op cache targets).1.failed ↔
      (t, e) ∈ (runBatch p op2 cache targets).1.failed) ∧
    (∀ targets2, targets.Perm targets2 →
      (runBatch p op cache targets).1.succeeded.length =
        (runBatch p op cache targets2).1.succeeded.length ∧
      (runBatch p op cache targets).1.failed.length =
        (runBatch p op cache targets2).1.failed.length) := by
  have hrt : runTarget p op t = runTarget p op2 t := by
    rw [runTarget, runTarget, hsame]
  obtain ⟨a1, a2, a3, a4⟩ := runBatchGo_report p op cache targets cache
  obtain ⟨b1, b2, b3, b4⟩ := runBatchGo_report p op2 cache targets cache
  refine ⟨?_, ?_, ?_, ?_⟩
  · rw [runBatch, runBatch, runBatchGo_cache, runBatchGo_cache, hrt]
  · intro s
    exact (a3 t s).trans (Iff.trans (by rw [hrt]) (b3 t s).symm)
  · intro e
    exact (a4 t e).trans (Iff.trans (by rw [hrt]) (b4 t e).symm)
  · intro targets2 hperm
    obtain ⟨l1, l2, l3, l4⟩ := runBatchGo_lengths p op cache targets cache
    obtain ⟨m1, m2, m3, m4⟩ := runBatchGo_lengths p op cache targets2 cache
    constructor
    · rw [runBatch, runBatch, l3, m3]
      exact (hperm.filter _).length_eq
    · rw [runBatch, runBatch, l4, m4]
      exact (hperm.filter _).length_eq

/-- Witness for C7: one always-failing target ("b0") among nine always
succeeding yields exactly 9 Succeeded and 1 Failed, also after reversing the
execution order. -/
theorem batch_isolation_witness :
    (runBatch ⟨1, 2, 2⟩
        (fun u _ => if u = "b0" then Except.error "boom" else Except.ok "done")
        (fun _ => Option.none)
        ["b0", "g1", "g2", "g3", "g4", "g5", "g6", "g7", "g8", "g9"]).1.succeeded.length = 9 ∧
    (runBatch ⟨1, 2, 2⟩
        (fun u _ => if u = "b0" then Except.error "boom" else Except.ok "done")
        (fun _ => Option.none)
        ["b0", "g1", "g2", "g3", "g4", "g5", "g6", "g7", "g8", "g9"]).1.failed.length = 1 ∧
    (runBatch ⟨1, 2, 2⟩
        (fun u _ => if u = "b0" then Except.error "boom" else Except.ok "done")
        (fun _ => Option.none)
        ["b0", "g1", "g2", "g3", "g4", "g5", "g6", "g7", "g8", "g9"]).1.failed.length =
      (runBatch ⟨1, 2, 2⟩
        (fun u _ => if u = "b0" then Except.error "boom" else Except.ok "done")
        (fun _ => Option.none)
        ["b0", "g1", "g2", "g3", "g4", "g5", "g6", "g7", "g8", "g9"].reverse).1.failed.length := by
  have h := batch_isolation ⟨1, 2, 2⟩ (fun _ => Option.none)
    ["b0", "g1", "g2", "g3", "g4", "g5", "g6", "g7", "g8", "g9"]
    (fun u _ => if u = "b0" then Except.error "boom" else Except.ok "done")
    (fun u _ => if u = "b0" then Except.error "boom" else Except.ok "done")
    "b0" rfl
  have hp := h.2.2.2
    ["b0", "g1", "g2", "g3", "g4", "g5", "g6", "g7", "g8", "g9"].reverse
    (List.reverse_perm _).symm
  exact ⟨by decide, by decide, hp.2⟩

end Metaboss
